import Mathlib

/-!
Verification of the connection-registry core of a database driver
(`internal/driver/cluster/cluster.go`): the endpoint diff engine, the
NodeID comparator and sort helper, and the registry state machine
(Insert / Update / Remove / Get / Pessimize / Close) together with its
balancer port, rediscovery trigger and broadcast gate.

Machine integers are modelled as `Nat`/`Int` with explicit reductions
modulo `2 ^ w` where the Go code can wrap.  Go's `panic` is modelled by
an explicit outcome constructor.  Packages of this repository that the
registry consumes but whose sources are not available (endpoint, conn,
entry, balancer, state, trace) are modelled from the specification; each
such definition says so in its doc comment.
-/

namespace Cluster

/-- Endpoint descriptor.  Modelled from the spec: the endpoint package is
absent from the sources.  `ID` holds the node identifier, a `uint32` in
the discovery protocol, stored as a `Nat` (its uint32 value is `ID`
reduced modulo `2 ^ 32`); `LoadFactor` is an opaque numeric load metric
(its value is only copied around, never computed with, so a `Nat` token
suffices); `Local` is the same-datacenter hint.  The network address is
omitted: the registry never inspects it. -/
structure Endpoint where
  ID : Nat
  LoadFactor : Nat
  Local : Bool
deriving Repr, DecidableEq, Inhabited

/-- Value of a `uint32` field converted to `int64` (exact, since every
uint32 value fits in an int64). -/
def u32val (n : Nat) : Int := (n % 4294967296 : Nat)

/-- Wrap an unbounded integer to Go `int64` two's-complement semantics. -/
def wrap64 (x : Int) : Int := (x + 2 ^ 63) % 2 ^ 64 - 2 ^ 63

/-- Embedding of `compareEndpoints`: `int(int64(a.ID) - int64(b.ID))`.
The `int64` conversions of the `uint32` fields are exact; the `int64`
subtraction wraps (hence `wrap64`); the final conversion to `int` is the
identity because Go's `int` is 64 bits wide on the platforms this driver
targets. -/
def compareEndpoints (a b : Endpoint) : Int :=
  wrap64 (u32val a.ID - u32val b.ID)

/-- Embedding of `SortEndpoints`: `sort.Slice` with
`less i j := compareEndpoints(es[i], es[j]) < 0`.  A correct sort leaves
the slice a permutation of its input that is pairwise ordered by the
negation of `less` on swapped arguments; `mergeSort` with that reflexive
ordering realises the contract. -/
def SortEndpoints (es : List Endpoint) : List Endpoint :=
  es.mergeSort (fun x y => !decide (compareEndpoints y x < 0))

/-- One callback event emitted by `diffslice`: `eq (i, j)` matched,
`add (i, j)` added, `del (i, j)` removed, with the pointer values the Go
code passes to the callback. -/
inductive DiffEv where
  | eq (i j : Nat)
  | add (i j : Nat)
  | del (i j : Nat)
deriving Repr, DecidableEq

/-- Recursive core of `diffslice`: the two-pointer merge loop starting at
pointers `(i, j)` followed by the two tail loops, with the callback calls
recorded as a list of events in call order. -/
def diffsliceGo (a b : Nat) (cmp : Nat → Nat → Int) (i j : Nat) :
    List DiffEv :=
  if h : i < a ∧ j < b then
    if cmp i j < 0 then DiffEv.del i j :: diffsliceGo a b cmp (i + 1) j
    else if 0 < cmp i j then DiffEv.add i j :: diffsliceGo a b cmp i (j + 1)
    else DiffEv.eq i j :: diffsliceGo a b cmp (i + 1) (j + 1)
  else if i < a then DiffEv.del i j :: diffsliceGo a b cmp (i + 1) j
  else if j < b then DiffEv.add i j :: diffsliceGo a b cmp i (j + 1)
  else []
termination_by a - i + (b - j)
decreasing_by all_goals omega

/-- Embedding of `diffslice(a, b, cmp, eq, add, del)`: the event trace of
the merge from pointers `(0, 0)`. -/
def diffslice (a b : Nat) (cmp : Nat → Nat → Int) : List DiffEv :=
  diffsliceGo a b cmp 0 0

/-- Embedding of `DiffEndpoints(curr, next, eq, add, del)`: `diffslice`
over the two lengths with `cmp i j = compareEndpoints curr[i] next[j]`
(the comparator is only ever invoked at in-range pointers). -/
def DiffEndpoints (curr next : List Endpoint) : List DiffEv :=
  diffslice curr.length next.length
    (fun i j => compareEndpoints (curr.getD i default) (next.getD j default))

/-- Number of matched events in a trace. -/
def countEq (evs : List DiffEv) : Nat :=
  (evs.filter fun e => match e with | DiffEv.eq _ _ => true | _ => false).length

/-- Number of added events in a trace. -/
def countAdd (evs : List DiffEv) : Nat :=
  (evs.filter fun e => match e with | DiffEv.add _ _ => true | _ => false).length

/-- Number of removed events in a trace. -/
def countDel (evs : List DiffEv) : Nat :=
  (evs.filter fun e => match e with | DiffEv.del _ _ => true | _ => false).length

/-- Runtime health state of a connection.  Modelled from the spec: the
state package is absent from the sources; the registry reads and writes
only `Online` and `Banned`. -/
inductive ConnState where
  | Online
  | Banned
deriving Repr, DecidableEq

/-- Error values the registry can return.  `wrapped msg inner` models
`fmt.Errorf(msg + ": %w", inner)`. -/
inductive GoErr where
  | clusterClosed
  | clusterEmpty
  | unknownEndpoint
  | nilBalancerElement
  | unknownBalancerElement
  | wrapped (msg : String) (inner : GoErr)
deriving Repr, DecidableEq

/-- Outcome of a call: a normal return, or a Go runtime panic (`fatal`)
carrying the panic message. -/
inductive Res (α : Type) where
  | ok (a : α)
  | fatal (msg : String)
deriving Repr, DecidableEq

/-- Connection object owned by an entry.  Modelled from the spec: the
conn package is absent from the sources.  `endpointE` is the endpoint it
was created for, `st` its runtime health state, and `closes` counts
`Close` calls observed on it (instrumentation of the model, used to
state that Close closes each connection exactly once). -/
structure Conn where
  endpointE : Endpoint
  st : ConnState
  closes : Nat
deriving Repr, DecidableEq

/-- Mutable-by-replacement balancer snapshot `{LoadFactor, Local}`. -/
structure Info where
  LoadFactor : Nat
  Local : Bool
deriving Repr, DecidableEq

/-- Per-node record stored in the registry's mapping.  `Conn` is a
reference (index into the connection heap) or `none` for Go `nil`;
`Handle` is the opaque balancer registration token or `none` for nil. -/
structure Entry where
  Info : Info
  Conn : Option Nat
  Handle : Option Nat
deriving Repr, DecidableEq

/-- One element tracked by the model balancer: the handle it issued, the
connection reference registered under it, and the last info snapshot. -/
structure BElem where
  handle : Nat
  ref : Nat
  info : Info
deriving Repr, DecidableEq

/-- State of the registry together with its collaborators.  `index`,
`ready`, `closed` and the broadcast gate are the cluster struct's own
fields; `conns` is the heap of connection objects (entries and balancer
elements hold references into it); `bElems`/`nextHandle` are the state of
the model balancer (modelled from the spec's Balancer Port contract: a
round-robin backend that issues fresh handles); `explorer` records
whether a Rediscovery Trigger is configured and `forceCount`/`stopCount`
count its `Force()`/`Stop()` calls; `waitGate` records whether the
one-shot broadcast gate is allocated and `gateReleases` counts its
releases. -/
structure ClusterState where
  closed : Bool
  index : List (Nat × Entry)
  ready : Int
  conns : List Conn
  bElems : List BElem
  nextHandle : Nat
  explorer : Bool
  forceCount : Nat
  stopCount : Nat
  waitGate : Bool
  gateReleases : Nat
deriving Repr, DecidableEq

/-- Lookup in the mapping (`c.index[k]`): the entry stored under key
`k`, if any. -/
def lookupA : List (Nat × Entry) → Nat → Option Entry
  | [], _ => none
  | (k, v) :: t, n => if k = n then some v else lookupA t n

/-- Map update at an existing key (`c.index[k] = e`). -/
def setA : List (Nat × Entry) → Nat → Entry → List (Nat × Entry)
  | [], _, _ => []
  | (k, v) :: t, n, e => if k = n then (k, e) :: t else (k, v) :: setA t n e

/-- Map deletion (`delete(c.index, k)`). -/
def eraseA : List (Nat × Entry) → Nat → List (Nat × Entry)
  | [], _ => []
  | (k, v) :: t, n => if k = n then t else (k, v) :: eraseA t n

/-- Set the runtime state of the connection at reference `r`
(`conn.Runtime().SetState(..)`). -/
def setConnState : List Conn → Nat → ConnState → List Conn
  | [], _, _ => []
  | c :: t, 0, st => { c with st := st } :: t
  | c :: t, n + 1, st => c :: setConnState t n st

/-- Record one `Close` call on the connection at reference `r`. -/
def bumpClose : List Conn → Nat → List Conn
  | [], _ => []
  | c :: t, 0 => { c with closes := c.closes + 1 } :: t
  | c :: t, n + 1 => c :: bumpClose t n

/-- Balancer port `Contains(handle)` on the model balancer. -/
def bContains (elems : List BElem) (h : Nat) : Bool :=
  elems.any fun e => e.handle = h

/-- Balancer port `Update(handle, info)` on the model balancer. -/
def bUpdate (elems : List BElem) (h : Nat) (i : Info) : List BElem :=
  elems.map fun e => if e.handle = h then { e with info := i } else e

/-- Balancer port `Remove(handle)` on the model balancer. -/
def bRemove (elems : List BElem) (h : Nat) : List BElem :=
  elems.filter fun e => e.handle ≠ h

/-- Embedding of `New(trace, dial, balancer)`: the freshly constructed
registry (empty mapping, nothing tracked, no trigger, no gate). -/
def New : ClusterState :=
  { closed := false, index := [], ready := 0, conns := [], bElems := []
    nextHandle := 0, explorer := false, forceCount := 0, stopCount := 0
    waitGate := false, gateReleases := 0 }

/-- Embedding of `SetExplorer(repeater)`: configures the Rediscovery
Trigger. -/
def SetExplorer (s : ClusterState) : ClusterState :=
  { s with explorer := true }

/-- Connection construction `conn.New(ctx, endpoint, dial, config)`.
Modelled from the spec: the conn package is absent from the sources;
dialing is delegated and may fail later, and the pessimize scenario of
the spec (insert four nodes, the trigger fires at the third pessimize)
requires a freshly inserted connection to count as `Online`. -/
def connNew (ep : Endpoint) : Conn :=
  { endpointE := ep, st := ConnState.Online, closes := 0 }

/-- Panic message of a Go nil dereference / nil interface method call. -/
def nilConnMsg : String :=
  "runtime error: invalid memory address or nil pointer dereference"

/-- Wrapping prefix used by every Pessimize error. -/
def pessimizeMsg : String := "cluster: pessimize failed"

/-- Does this entry count as online?  `e.Conn != nil &&
e.Conn.Runtime().GetState() == state.Online`. -/
def isOnline (conns : List Conn) (e : Entry) : Bool :=
  match e.Conn with
  | some r =>
    match conns[r]? with
    | some c => match c.st with | ConnState.Online => true | _ => false
    | none => false
  | none => false

/-- Number of entries whose connection is present and online (the loop
in `Pessimize` computing the banned/all ratio). -/
def countOnline (s : ClusterState) : Nat :=
  (s.index.filter fun kv => isOnline s.conns kv.2).length

/-- Balancer port `Next()` on the model balancer and the tail of
`cluster.Get` after it: the round-robin backend yields its first element
and rotates.  When the balancer is empty, `Next()` yields nil; the code
assigns `ErrClusterEmpty` to `err` but then evaluates
`onDone(conn.Endpoint(), err)`, a method call on the nil connection,
which panics before the error can be returned. -/
def getNext (s : ClusterState) : Res (Option Nat × Option GoErr) × ClusterState :=
  match s.bElems with
  | [] => (Res.fatal nilConnMsg, s)
  | e :: rest => (Res.ok (some e.ref, none), { s with bElems := rest ++ [e] })

/-- Embedding of `cluster.Get(ctx)`.  `hint` is the context's
node-affinity NodeID, if any; the result pairs the returned connection
reference with the returned error. -/
def Get (s : ClusterState) (hint : Option Nat) :
    Res (Option Nat × Option GoErr) × ClusterState :=
  if s.closed then (Res.ok (none, some GoErr.clusterClosed), s)
  else
    match hint with
    | some n =>
      match lookupA s.index n with
      | some e => (Res.ok (e.Conn, none), s)
      | none => getNext s
    | none => getNext s

/-- Embedding of `cluster.Insert(ctx, endpoint, opts)`.  The connection
is built before the lock is taken (so it is allocated even when the
registry turns out to be closed); a duplicate NodeID panics; otherwise
the entry is registered with the balancer (obtaining a fresh handle),
the ready counter is incremented, the broadcast gate (if allocated) is
released, and the entry is stored in the mapping. -/
def Insert (s : ClusterState) (ep : Endpoint) : Res Unit × ClusterState :=
  let ref := s.conns.length
  let s1 := { s with conns := s.conns ++ [connNew ep] }
  if s1.closed then (Res.ok (), s1)
  else if (lookupA s1.index ep.ID).isSome then
    (Res.fatal "ydb: can't insert already existing endpoint", s1)
  else
    let i : Info := { LoadFactor := ep.LoadFactor, Local := ep.Local }
    let h := s1.nextHandle
    let s2 := { s1 with
      bElems := s1.bElems ++ [({ handle := h, ref := ref, info := i } : BElem)]
      nextHandle := h + 1 }
    (Res.ok (), { s2 with
      ready := s2.ready + 1
      gateReleases := s2.gateReleases + (if s2.waitGate then 1 else 0)
      waitGate := false
      index := s2.index ++
        [(ep.ID, ({ Info := i, Conn := some ref, Handle := some h } : Entry))] })

/-- Embedding of `cluster.Update(ctx, endpoint, opts)`: no-op when
closed; panics when the NodeID is absent or the entry's connection is
nil; otherwise replaces Info wholesale, marks the connection Online, and
propagates the new Info to the balancer only when the entry currently
holds a handle. -/
def Update (s : ClusterState) (ep : Endpoint) : Res Unit × ClusterState :=
  if s.closed then (Res.ok (), s)
  else
    match lookupA s.index ep.ID with
    | none => (Res.fatal "ydb: can't update not-existing endpoint", s)
    | some e =>
      match e.Conn with
      | none => (Res.fatal "ydb: cluster entry with nil conn", s)
      | some r =>
        let i : Info := { LoadFactor := ep.LoadFactor, Local := ep.Local }
        let s1 := { s with
          conns := setConnState s.conns r ConnState.Online
          index := setA s.index ep.ID { e with Info := i } }
        match e.Handle with
        | some h => (Res.ok (), { s1 with bElems := bUpdate s1.bElems h i })
        | none => (Res.ok (), s1)

/-- Embedding of `cluster.Remove(ctx, endpoint, opts)`: no-op when
closed; panics when the NodeID is absent; otherwise unregisters from the
balancer (`entry.RemoveFrom` — modelled from the spec since the entry
package is absent from the sources: handing the balancer a nil handle is
forbidden and aborts), decrements the ready counter, deletes the mapping
entry, then closes the connection if present.  After the guarded close
the code evaluates `entry.Conn.Runtime().GetState()` for the trace
callback unconditionally, so a nil connection panics there — after the
mutations have already taken effect. -/
def Remove (s : ClusterState) (ep : Endpoint) : Res Unit × ClusterState :=
  if s.closed then (Res.ok (), s)
  else
    match lookupA s.index ep.ID with
    | none => (Res.fatal "ydb: can't remove not-existing endpoint", s)
    | some e =>
      match e.Handle with
      | none => (Res.fatal "ydb: remove of entry not registered with the balancer", s)
      | some h =>
        let s1 := { s with
          bElems := bRemove s.bElems h
          ready := s.ready - 1
          index := eraseA s.index ep.ID }
        match e.Conn with
        | some r => (Res.ok (), { s1 with conns := bumpClose s1.conns r })
        | none => (Res.fatal nilConnMsg, s1)

/-- Embedding of `cluster.Pessimize(ctx, endpoint)`: four distinct
wrapped error kinds (closed, unknown endpoint, nil handle, handle not in
the balancer); on success marks the connection Banned and, when a
trigger is configured and the recount finds online-count × 2 below the
number of tracked entries, forces a rediscovery cycle. -/
def Pessimize (s : ClusterState) (epID : Nat) :
    Res (Option GoErr) × ClusterState :=
  if s.closed then
    (Res.ok (some (GoErr.wrapped pessimizeMsg GoErr.clusterClosed)), s)
  else
    match lookupA s.index epID with
    | none => (Res.ok (some (GoErr.wrapped pessimizeMsg GoErr.unknownEndpoint)), s)
    | some e =>
      match e.Handle with
      | none =>
        (Res.ok (some (GoErr.wrapped pessimizeMsg GoErr.nilBalancerElement)), s)
      | some h =>
        if bContains s.bElems h then
          match e.Conn with
          | none => (Res.fatal nilConnMsg, s)
          | some r =>
            let s1 := { s with conns := setConnState s.conns r ConnState.Banned }
            if s1.explorer then
              if countOnline s1 * 2 < s1.index.length then
                (Res.ok none, { s1 with forceCount := s1.forceCount + 1 })
              else (Res.ok none, s1)
            else (Res.ok none, s1)
        else
          (Res.ok (some (GoErr.wrapped pessimizeMsg GoErr.unknownBalancerElement)), s)

/-- Close every connection in `rs` once (the loop at the end of
`cluster.Close` over the detached mapping, skipping nil connections —
`rs` is the list of present connection references). -/
def closeAll (conns : List Conn) (rs : List Nat) : List Conn :=
  rs.foldl bumpClose conns

/-- Embedding of `cluster.Close(ctx)`: returns immediately when already
closed; otherwise stops the trigger if set, flips the closed flag,
detaches and releases the broadcast gate, detaches the mapping, and
closes every entry's present connection.  Always returns a nil error. -/
def Close (s : ClusterState) : Res (Option GoErr) × ClusterState :=
  if s.closed then (Res.ok none, s)
  else
    (Res.ok none, { s with
      closed := true
      stopCount := s.stopCount + (if s.explorer then 1 else 0)
      gateReleases := s.gateReleases + (if s.waitGate then 1 else 0)
      waitGate := false
      index := []
      conns := closeAll s.conns (s.index.filterMap fun kv => kv.2.Conn) })

/-- Concrete one-entry registry (NodeID 1, online connection 0,
registered with the balancer under handle 0) used by witnesses. -/
def regOne : ClusterState :=
  { New with
    index := [(1, ({ Info := ⟨0, false⟩, Conn := some 0, Handle := some 0 } : Entry))]
    conns := [{ endpointE := ⟨1, 0, false⟩, st := ConnState.Online, closes := 0 }]
    bElems := [({ handle := 0, ref := 0, info := ⟨0, false⟩ } : BElem)]
    ready := 1
    nextHandle := 1 }

/-- Endpoint with NodeID `n` and default metadata, for concrete runs. -/
def scenEp (n : Nat) : Endpoint := { ID := n, LoadFactor := 0, Local := false }

/-- The spec's pessimize scenario, first half: a fresh registry with a
configured Rediscovery Trigger into which nodes 1, 2, 3, 4 have been
inserted. -/
def scenFour : ClusterState :=
  (Insert ((Insert ((Insert ((Insert (SetExplorer New) (scenEp 1)).2)
    (scenEp 2)).2) (scenEp 3)).2) (scenEp 4)).2

/-- The scenario state after pessimizing nodes 1 and 2 of the four. -/
def scenTwo : ClusterState := (Pessimize (Pessimize scenFour 1).2 2).2

/-- Registry whose single entry (NodeID 1) has a registered balancer
handle but a nil connection, exercising the nil-connection path of
Remove. -/
def c10state : ClusterState :=
  { New with
    index := [(1, ({ Info := ⟨0, false⟩, Conn := none, Handle := some 0 } : Entry))]
    bElems := [({ handle := 0, ref := 0, info := ⟨0, false⟩ } : BElem)]
    ready := 1
    nextHandle := 1 }

lemma u32val_nonneg (n : Nat) : 0 ≤ u32val n := by
  unfold u32val
  exact_mod_cast Nat.zero_le _

lemma u32val_lt (n : Nat) : u32val n < 4294967296 := by
  unfold u32val
  exact_mod_cast Nat.mod_lt _ (by norm_num)

/-- The int64 subtraction inside `compareEndpoints` never wraps: the
difference of two uint32 values always fits in an int64. -/
lemma compareEndpoints_eq_sub (a b : Endpoint) :
    compareEndpoints a b = u32val a.ID - u32val b.ID := by
  have h1 := u32val_nonneg a.ID
  have h2 := u32val_nonneg b.ID
  have h3 := u32val_lt a.ID
  have h4 := u32val_lt b.ID
  unfold compareEndpoints wrap64
  omega

lemma u32val_eq_of_lt {n : Nat} (h : n < 2 ^ 32) : u32val n = n := by
  unfold u32val
  norm_num at h
  rw [Nat.mod_eq_of_lt h]

lemma sortLe_iff (x y : Endpoint) :
    (!decide (compareEndpoints y x < 0)) = true ↔ u32val x.ID ≤ u32val y.ID := by
  rw [compareEndpoints_eq_sub]
  simp only [Bool.not_eq_true', decide_eq_false_iff_not, not_lt]
  omega

/-- C7: `compareEndpoints` is an exact numeric three-way comparison of
the NodeIDs — even at maximal-magnitude, widely separated uint32 values
the int64 subtraction cannot overflow — and `SortEndpoints` therefore
sorts any endpoint slice ascending by NodeID (a permutation of the input
that is pairwise NodeID-ordered). -/
theorem compareEndpoints_trichotomy_and_sort :
    (∀ a b : Endpoint, a.ID < 2 ^ 32 → b.ID < 2 ^ 32 →
      ((compareEndpoints a b < 0 ↔ a.ID < b.ID) ∧
       (compareEndpoints a b = 0 ↔ a.ID = b.ID) ∧
       (0 < compareEndpoints a b ↔ b.ID < a.ID))) ∧
    (∀ es : List Endpoint, (∀ e ∈ es, e.ID < 2 ^ 32) →
      (SortEndpoints es).Pairwise (fun x y => x.ID ≤ y.ID) ∧
      (SortEndpoints es).Perm es) := by
  constructor
  · intro a b ha hb
    rw [compareEndpoints_eq_sub, u32val_eq_of_lt ha, u32val_eq_of_lt hb]
    refine ⟨by omega, by omega, by omega⟩
  · intro es hes
    unfold SortEndpoints
    have htrans : ∀ x y z : Endpoint,
        (!decide (compareEndpoints y x < 0)) = true →
        (!decide (compareEndpoints z y < 0)) = true →
        (!decide (compareEndpoints z x < 0)) = true := by
      intro x y z hxy hyz
      rw [sortLe_iff] at hxy hyz ⊢
      omega
    have htotal : ∀ x y : Endpoint,
        ((!decide (compareEndpoints y x < 0)) ||
         (!decide (compareEndpoints x y < 0))) = true := by
      intro x y
      have h1 := sortLe_iff x y
      have h2 := sortLe_iff y x
      rcases le_total (u32val x.ID) (u32val y.ID) with h | h
      · simp [h1.mpr h]
      · simp [h2.mpr h]
    have hperm := List.mergeSort_perm es fun x y => !decide (compareEndpoints y x < 0)
    refine ⟨?_, hperm⟩
    have hp := List.sorted_mergeSort htrans htotal es
    refine hp.imp_of_mem ?_
    intro x y hx hy hxy
    have hx' : x ∈ es := hperm.mem_iff.mp hx
    have hy' : y ∈ es := hperm.mem_iff.mp hy
    rw [sortLe_iff, u32val_eq_of_lt (hes x hx'), u32val_eq_of_lt (hes y hy')] at hxy
    exact_mod_cast hxy

/-- Witness for C7 at concrete inputs: the comparator at the extreme
uint32 pair `(0, 2^32 - 1)` is negative, and sorting a concrete unsorted
slice yields a NodeID-ascending list. -/
theorem compareEndpoints_trichotomy_and_sort_witness :
    compareEndpoints ⟨0, 0, false⟩ ⟨4294967295, 0, false⟩ < 0 ∧
    (SortEndpoints [⟨5, 0, false⟩, ⟨2, 0, false⟩, ⟨4294967295, 0, false⟩]).Pairwise
      (fun x y => x.ID ≤ y.ID) :=
  ⟨(compareEndpoints_trichotomy_and_sort.1 ⟨0, 0, false⟩ ⟨4294967295, 0, false⟩
      (by norm_num) (by norm_num)).1.mpr (by norm_num),
   (compareEndpoints_trichotomy_and_sort.2
      [⟨5, 0, false⟩, ⟨2, 0, false⟩, ⟨4294967295, 0, false⟩]
      (by intro e he; fin_cases he <;> norm_num)).1⟩

@[simp] lemma countEq_nil : countEq [] = 0 := rfl

@[simp] lemma countAdd_nil : countAdd [] = 0 := rfl

@[simp] lemma countDel_nil : countDel [] = 0 := rfl

@[simp] lemma countEq_cons_eq (i j : Nat) (t : List DiffEv) :
    countEq (DiffEv.eq i j :: t) = countEq t + 1 := rfl

@[simp] lemma countEq_cons_add (i j : Nat) (t : List DiffEv) :
    countEq (DiffEv.add i j :: t) = countEq t := rfl

@[simp] lemma countEq_cons_del (i j : Nat) (t : List DiffEv) :
    countEq (DiffEv.del i j :: t) = countEq t := rfl

@[simp] lemma countAdd_cons_eq (i j : Nat) (t : List DiffEv) :
    countAdd (DiffEv.eq i j :: t) = countAdd t := rfl

@[simp] lemma countAdd_cons_add (i j : Nat) (t : List DiffEv) :
    countAdd (DiffEv.add i j :: t) = countAdd t + 1 := rfl

@[simp] lemma countAdd_cons_del (i j : Nat) (t : List DiffEv) :
    countAdd (DiffEv.del i j :: t) = countAdd t := rfl

@[simp] lemma countDel_cons_eq (i j : Nat) (t : List DiffEv) :
    countDel (DiffEv.eq i j :: t) = countDel t := rfl

@[simp] lemma countDel_cons_add (i j : Nat) (t : List DiffEv) :
    countDel (DiffEv.add i j :: t) = countDel t := rfl

@[simp] lemma countDel_cons_del (i j : Nat) (t : List DiffEv) :
    countDel (DiffEv.del i j :: t) = countDel t + 1 := rfl

/-- When the comparator never reports equality, the merge emits one
removed event per remaining current-side element and one added event per
remaining next-side element, and no matched event. -/
lemma diffsliceGo_counts_disjoint (a b : Nat) (cmp : Nat → Nat → Int)
    (hne : ∀ i j, i < a → j < b → cmp i j ≠ 0) :
    ∀ n i j, a - i + (b - j) ≤ n →
      countDel (diffsliceGo a b cmp i j) = a - i ∧
      countAdd (diffsliceGo a b cmp i j) = b - j ∧
      countEq (diffsliceGo a b cmp i j) = 0 := by
  intro n
  induction n with
  | zero =>
    intro i j hn
    have hia : ¬ i < a := by omega
    have hjb : ¬ j < b := by omega
    rw [diffsliceGo]
    rw [dif_neg (by tauto), if_neg hia, if_neg hjb]
    refine ⟨by simp; omega, by simp; omega, by simp⟩
  | succ n ih =>
    intro i j hn
    rw [diffsliceGo]
    by_cases hij : i < a ∧ j < b
    · obtain ⟨hia, hjb⟩ := hij
      rw [dif_pos ⟨hia, hjb⟩]
      have hc := hne i j hia hjb
      rcases lt_trichotomy (cmp i j) 0 with hlt | heq | hgt
      · rw [if_pos hlt]
        obtain ⟨h1, h2, h3⟩ := ih (i + 1) j (by omega)
        refine ⟨?_, ?_, ?_⟩
        · rw [countDel_cons_del, h1]; omega
        · rw [countAdd_cons_del, h2]
        · rw [countEq_cons_del, h3]
      · exact absurd heq hc
      · rw [if_neg (by omega), if_pos hgt]
        obtain ⟨h1, h2, h3⟩ := ih i (j + 1) (by omega)
        refine ⟨?_, ?_, ?_⟩
        · rw [countDel_cons_add, h1]
        · rw [countAdd_cons_add, h2]; omega
        · rw [countEq_cons_add, h3]
    · rw [dif_neg hij]
      by_cases hia : i < a
      · rw [if_pos hia]
        obtain ⟨h1, h2, h3⟩ := ih (i + 1) j (by omega)
        refine ⟨?_, ?_, ?_⟩
        · rw [countDel_cons_del, h1]; omega
        · rw [countAdd_cons_del, h2]
        · rw [countEq_cons_del, h3]
      · rw [if_neg hia]
        by_cases hjb : j < b
        · rw [if_pos hjb]
          obtain ⟨h1, h2, h3⟩ := ih i (j + 1) (by omega)
          refine ⟨?_, ?_, ?_⟩
          · rw [countDel_cons_add, h1]
          · rw [countAdd_cons_add, h2]; omega
          · rw [countEq_cons_add, h3]
        · rw [if_neg hjb]
          refine ⟨by simp; omega, by simp; omega, by simp⟩

/-- When the comparator reports equality on the diagonal, the merge of
two equal-length sides starting on the diagonal emits only matched
events, one per remaining element. -/
lemma diffsliceGo_counts_diag (a : Nat) (cmp : Nat → Nat → Int)
    (hdiag : ∀ i, i < a → cmp i i = 0) :
    ∀ n i, a - i ≤ n →
      countEq (diffsliceGo a a cmp i i) = a - i ∧
      countAdd (diffsliceGo a a cmp i i) = 0 ∧
      countDel (diffsliceGo a a cmp i i) = 0 := by
  intro n
  induction n with
  | zero =>
    intro i hn
    have hia : ¬ i < a := by omega
    rw [diffsliceGo]
    rw [dif_neg (by tauto), if_neg hia, if_neg hia]
    refine ⟨by simp; omega, by simp, by simp⟩
  | succ n ih =>
    intro i hn
    rw [diffsliceGo]
    by_cases hia : i < a
    · rw [dif_pos ⟨hia, hia⟩, hdiag i hia]
      rw [if_neg (by omega), if_neg (by omega)]
      obtain ⟨h1, h2, h3⟩ := ih (i + 1) (by omega)
      refine ⟨?_, ?_, ?_⟩
      · rw [countEq_cons_eq, h1]; omega
      · rw [countAdd_cons_eq, h2]
      · rw [countDel_cons_eq, h3]
    · rw [dif_neg (by tauto), if_neg hia, if_neg hia]
      refine ⟨by simp; omega, by simp, by simp⟩

/-- With an exhausted next side, the merge is exactly the removed-tail
loop. -/
lemma diffsliceGo_right_nil (a : Nat) (cmp : Nat → Nat → Int) :
    ∀ n i, a - i ≤ n →
      diffsliceGo a 0 cmp i 0 = (List.range' i (a - i)).map fun k => DiffEv.del k 0 := by
  intro n
  induction n with
  | zero =>
    intro i hn
    have hia : ¬ i < a := by omega
    rw [diffsliceGo]
    rw [dif_neg (by simp), if_neg hia, if_neg (by omega)]
    have : a - i = 0 := by omega
    simp [this]
  | succ n ih =>
    intro i hn
    rw [diffsliceGo]
    rw [dif_neg (by simp)]
    by_cases hia : i < a
    · rw [if_pos hia, ih (i + 1) (by omega)]
      have : a - i = (a - (i + 1)) + 1 := by omega
      rw [this, List.range'_succ]
      simp
    · rw [if_neg hia, if_neg (by omega)]
      have : a - i = 0 := by omega
      simp [this]

/-- With an exhausted current side, the merge is exactly the added-tail
loop. -/
lemma diffsliceGo_left_nil (b : Nat) (cmp : Nat → Nat → Int) :
    ∀ n j, b - j ≤ n →
      diffsliceGo 0 b cmp 0 j = (List.range' j (b - j)).map fun k => DiffEv.add 0 k := by
  intro n
  induction n with
  | zero =>
    intro j hn
    have hjb : ¬ j < b := by omega
    rw [diffsliceGo]
    rw [dif_neg (by simp), if_neg (by omega), if_neg hjb]
    have : b - j = 0 := by omega
    simp [this]
  | succ n ih =>
    intro j hn
    rw [diffsliceGo]
    rw [dif_neg (by simp), if_neg (by omega)]
    by_cases hjb : j < b
    · rw [if_pos hjb, ih (j + 1) (by omega)]
      have : b - j = (b - (j + 1)) + 1 := by omega
      rw [this, List.range'_succ]
      simp
    · rw [if_neg hjb]
      have : b - j = 0 := by omega
      simp [this]

/-- C6: the two-pointer merge of `DiffEndpoints`.  For NodeID-sorted
lists with no common IDs it emits exactly one removed event per current
element and one added event per next element and no matched event; for
identical lists it emits exactly one matched event per element and
nothing else; and against an empty other side either list is emitted
wholesale as removed (current tail) or added (next tail). -/
theorem DiffEndpoints_merge_counts :
    (∀ curr next : List Endpoint,
      curr.Pairwise (fun x y => x.ID ≤ y.ID) →
      next.Pairwise (fun x y => x.ID ≤ y.ID) →
      (∀ e ∈ curr, e.ID < 2 ^ 32) →
      (∀ e ∈ next, e.ID < 2 ^ 32) →
      (∀ x ∈ curr, ∀ y ∈ next, x.ID ≠ y.ID) →
      countDel (DiffEndpoints curr next) = curr.length ∧
      countAdd (DiffEndpoints curr next) = next.length ∧
      countEq (DiffEndpoints curr next) = 0) ∧
    (∀ l : List Endpoint,
      countEq (DiffEndpoints l l) = l.length ∧
      countAdd (DiffEndpoints l l) = 0 ∧
      countDel (DiffEndpoints l l) = 0) ∧
    (∀ curr : List Endpoint,
      DiffEndpoints curr [] = (List.range curr.length).map fun i => DiffEv.del i 0) ∧
    (∀ next : List Endpoint,
      DiffEndpoints [] next = (List.range next.length).map fun j => DiffEv.add 0 j) := by
  refine ⟨?_, ?_, ?_, ?_⟩
  · intro curr next _ _ hc hn hdisj
    unfold DiffEndpoints diffslice
    have hne : ∀ i j, i < curr.length → j < next.length →
        compareEndpoints (curr.getD i default) (next.getD j default) ≠ 0 := by
      intro i j hi hj
      rw [List.getD_eq_getElem curr default hi, List.getD_eq_getElem next default hj]
      have hx := hc curr[i] (List.getElem_mem hi)
      have hy := hn next[j] (List.getElem_mem hj)
      have hxy := hdisj curr[i] (List.getElem_mem hi) next[j] (List.getElem_mem hj)
      rw [compareEndpoints_eq_sub, u32val_eq_of_lt hx, u32val_eq_of_lt hy]
      omega
    have h := diffsliceGo_counts_disjoint curr.length next.length _ hne
      (curr.length + next.length) 0 0 (by omega)
    simpa using h
  · intro l
    have hdiag : ∀ i, i < l.length →
        compareEndpoints (l.getD i default) (l.getD i default) = 0 := by
      intro i _
      rw [compareEndpoints_eq_sub]
      omega
    have h := diffsliceGo_counts_diag l.length
      (fun i j => compareEndpoints (l.getD i default) (l.getD j default))
      hdiag l.length 0 (by omega)
    unfold DiffEndpoints diffslice
    simpa using h
  · intro curr
    unfold DiffEndpoints diffslice
    have h := diffsliceGo_right_nil curr.length
      (fun i j => compareEndpoints (curr.getD i default) (([] : List Endpoint).getD j default))
      curr.length 0 (by omega)
    simpa [List.range_eq_range'] using h
  · intro next
    unfold DiffEndpoints diffslice
    have h := diffsliceGo_left_nil next.length
      (fun i j => compareEndpoints (([] : List Endpoint).getD i default) (next.getD j default))
      next.length 0 (by omega)
    simpa [List.range_eq_range'] using h

/-- Witness for C6 at concrete inputs: diffing the disjoint sorted lists
`[1, 3]` and `[2, 4]` yields two removed, two added, no matched; diffing
`[1, 2]` against itself yields two matched and nothing else. -/
theorem DiffEndpoints_merge_counts_witness :
    (countDel (DiffEndpoints [⟨1, 0, false⟩, ⟨3, 0, false⟩]
        [⟨2, 0, false⟩, ⟨4, 0, false⟩]) = 2 ∧
     countAdd (DiffEndpoints [⟨1, 0, false⟩, ⟨3, 0, false⟩]
        [⟨2, 0, false⟩, ⟨4, 0, false⟩]) = 2 ∧
     countEq (DiffEndpoints [⟨1, 0, false⟩, ⟨3, 0, false⟩]
        [⟨2, 0, false⟩, ⟨4, 0, false⟩]) = 0) ∧
    countEq (DiffEndpoints [⟨1, 0, false⟩, ⟨2, 0, false⟩]
        [⟨1, 0, false⟩, ⟨2, 0, false⟩]) = 2 :=
  ⟨DiffEndpoints_merge_counts.1 [⟨1, 0, false⟩, ⟨3, 0, false⟩]
      [⟨2, 0, false⟩, ⟨4, 0, false⟩]
      (by decide) (by decide) (by decide) (by decide) (by decide),
   (DiffEndpoints_merge_counts.2.1 [⟨1, 0, false⟩, ⟨2, 0, false⟩]).1⟩

lemma setConnState_getElem (l : List Conn) (r : Nat) (st : ConnState)
    (h : r < l.length) :
    (setConnState l r st)[r]? = (l[r]?).map fun c => { c with st := st } := by
  induction l generalizing r with
  | nil => simp at h
  | cons c t ih =>
    cases r with
    | zero => simp [setConnState]
    | succ r =>
      simp only [setConnState, List.getElem?_cons_succ]
      exact ih r (by simpa using h)

lemma bumpClose_getElem (l : List Conn) (r k : Nat) :
    (bumpClose l r)[k]? =
      if k = r then (l[k]?).map fun c => { c with closes := c.closes + 1 }
      else l[k]? := by
  induction l generalizing r k with
  | nil => simp [bumpClose]
  | cons c t ih =>
    cases r with
    | zero =>
      cases k with
      | zero => simp [bumpClose]
      | succ k => simp [bumpClose]
    | succ r =>
      cases k with
      | zero => simp [bumpClose]
      | succ k =>
        simp only [bumpClose, List.getElem?_cons_succ, ih, Nat.succ_eq_add_one]
        by_cases hkr : k = r
        · simp [hkr]
        · simp [hkr, fun h => hkr (Nat.add_right_cancel h)]

lemma closeAll_getElem (rs : List Nat) (l : List Conn) (r : Nat) :
    (closeAll l rs)[r]? =
      (l[r]?).map fun c => { c with closes := c.closes + rs.count r } := by
  induction rs generalizing l with
  | nil =>
    cases h : l[r]? <;> simp [closeAll, h]
  | cons r' rs ih =>
    have hstep : closeAll l (r' :: rs) = closeAll (bumpClose l r') rs := rfl
    rw [hstep, ih, bumpClose_getElem]
    by_cases hrr : r = r'
    · subst hrr
      cases h : l[r]? <;> (simp [h, List.count_cons]; try omega)
    · cases h : l[r]? <;>
        simp [h, hrr, List.count_cons]

/-- C1 (code bug): `Get` on the freshly constructed, never-inserted
registry with no affinity hint does not return the ClusterEmpty error.
The balancer yields no connection and `err` is assigned
`ErrClusterEmpty`, but the code then evaluates `conn.Endpoint()` on the
nil connection to build the trace event, which panics before the error
can be returned. -/
theorem Get_empty_cluster_panics :
    Get New none = (Res.fatal nilConnMsg, New) := rfl

/-- C4: once the closed flag is set it is never reset, and from any
closed state every call behaves deterministically — Insert, Update and
Remove return normally without touching the mapping, ready counter or
balancer, Get fails with the ClusterClosed error, Pessimize fails with
the wrapped ClusterClosed error, and Close is a silent no-op. -/
theorem closed_registry_frozen :
    ∀ s : ClusterState, s.closed = true →
      (∀ ep : Endpoint,
        (Insert s ep).1 = Res.ok () ∧
        (Insert s ep).2.index = s.index ∧
        (Insert s ep).2.ready = s.ready ∧
        (Insert s ep).2.bElems = s.bElems ∧
        (Insert s ep).2.closed = true) ∧
      (∀ ep : Endpoint, Update s ep = (Res.ok (), s)) ∧
      (∀ ep : Endpoint, Remove s ep = (Res.ok (), s)) ∧
      (∀ hint : Option Nat,
        Get s hint = (Res.ok (none, some GoErr.clusterClosed), s)) ∧
      (∀ epID : Nat, Pessimize s epID =
        (Res.ok (some (GoErr.wrapped pessimizeMsg GoErr.clusterClosed)), s)) ∧
      Close s = (Res.ok none, s) ∧
      (SetExplorer s).closed = true := by
  intro s h
  refine ⟨?_, ?_, ?_, ?_, ?_, ?_, ?_⟩
  · intro ep; simp [Insert, h]
  · intro ep; simp [Update, h]
  · intro ep; simp [Remove, h]
  · intro hint; simp [Get, h]
  · intro epID; simp [Pessimize, h]
  · simp [Close, h]
  · simp [SetExplorer, h]

/-- Witness for C4 at a concrete closed state. -/
theorem closed_registry_frozen_witness :
    Get { New with closed := true } none =
      (Res.ok (none, some GoErr.clusterClosed), { New with closed := true }) ∧
    Pessimize { New with closed := true } 1 =
      (Res.ok (some (GoErr.wrapped pessimizeMsg GoErr.clusterClosed)),
       { New with closed := true }) ∧
    Close { New with closed := true } = (Res.ok none, { New with closed := true }) :=
  ⟨(closed_registry_frozen { New with closed := true } rfl).2.2.2.1 none,
   (closed_registry_frozen { New with closed := true } rfl).2.2.2.2.1 1,
   (closed_registry_frozen { New with closed := true } rfl).2.2.2.2.2.1⟩

/-- C5: on a non-closed registry, Get with an affinity hint that is
present in the mapping returns that entry's connection unchanged,
leaving the whole state (balancer included) untouched and regardless of
the connection's health; a hint absent from the mapping makes Get behave
exactly like a hint-less Get (fall through to balancer selection). -/
theorem Get_affinity_hint :
    ∀ (s : ClusterState) (n : Nat), s.closed = false →
      (∀ e : Entry, lookupA s.index n = some e →
        Get s (some n) = (Res.ok (e.Conn, none), s)) ∧
      (lookupA s.index n = none → Get s (some n) = Get s none) := by
  intro s n h
  constructor
  · intro e he
    simp [Get, h, he]
  · intro he
    simp [Get, h, he]

/-- Witness for C5 at a concrete state whose single entry is Banned (a
pessimized node is still returned by an affinity Get) and whose balancer
is empty (no other node is routable). -/
theorem Get_affinity_hint_witness :
    Get { New with
            index := [(7, ({ Info := ⟨0, false⟩, Conn := some 0, Handle := some 0 } : Entry))]
            conns := [{ endpointE := ⟨7, 0, false⟩, st := ConnState.Banned, closes := 0 }]
            ready := 1 } (some 7) =
      (Res.ok (some 0, none),
       { New with
           index := [(7, ({ Info := ⟨0, false⟩, Conn := some 0, Handle := some 0 } : Entry))]
           conns := [{ endpointE := ⟨7, 0, false⟩, st := ConnState.Banned, closes := 0 }]
           ready := 1 }) :=
  (Get_affinity_hint _ 7 rfl).1
    { Info := ⟨0, false⟩, Conn := some 0, Handle := some 0 } rfl

/-- C9: on a non-closed registry the programmer-contract violations
abort fatally rather than returning an error, and leave the mapping,
ready counter and balancer untouched: Insert of a NodeID already
present, Update of a NodeID not present or of an entry whose connection
is absent, and Remove of a NodeID not present. -/
theorem contract_violations_abort :
    ∀ s : ClusterState, s.closed = false →
      (∀ ep : Endpoint, (lookupA s.index ep.ID).isSome = true →
        (Insert s ep).1 = Res.fatal "ydb: can't insert already existing endpoint" ∧
        (Insert s ep).2.index = s.index ∧
        (Insert s ep).2.ready = s.ready ∧
        (Insert s ep).2.bElems = s.bElems) ∧
      (∀ ep : Endpoint, lookupA s.index ep.ID = none →
        Update s ep = (Res.fatal "ydb: can't update not-existing endpoint", s)) ∧
      (∀ (ep : Endpoint) (e : Entry),
        lookupA s.index ep.ID = some e → e.Conn = none →
        Update s ep = (Res.fatal "ydb: cluster entry with nil conn", s)) ∧
      (∀ ep : Endpoint, lookupA s.index ep.ID = none →
        Remove s ep = (Res.fatal "ydb: can't remove not-existing endpoint", s)) := by
  intro s h
  refine ⟨?_, ?_, ?_, ?_⟩
  · intro ep hdup
    simp [Insert, h, hdup]
  · intro ep habs
    simp [Update, h, habs]
  · intro ep e he hc
    simp [Update, h, he, hc]
  · intro ep habs
    simp [Remove, h, habs]

/-- Witness for C9 at a concrete one-entry registry: duplicate Insert
aborts, and Update of an absent NodeID aborts. -/
theorem contract_violations_abort_witness :
    (Insert regOne ⟨1, 0, false⟩).1 =
      Res.fatal "ydb: can't insert already existing endpoint" ∧
    Update regOne ⟨2, 0, false⟩ =
      (Res.fatal "ydb: can't update not-existing endpoint", regOne) :=
  ⟨((contract_violations_abort regOne rfl).1 ⟨1, 0, false⟩ (by decide)).1,
   (contract_violations_abort regOne rfl).2.1 ⟨2, 0, false⟩ (by decide)⟩

/-- C2: Pessimize returns the four distinct wrapped error kinds in order
— ClusterClosed when closed, UnknownEndpoint when the NodeID is not in
the mapping, NilBalancerElement when the entry's handle is nil,
UnknownBalancerElement when the balancer no longer contains the handle —
and when none of these apply it marks the connection's runtime state
Banned and returns no error. -/
theorem Pessimize_error_kinds_and_ban :
    ∀ (s : ClusterState) (epID : Nat),
      (s.closed = true → Pessimize s epID =
        (Res.ok (some (GoErr.wrapped pessimizeMsg GoErr.clusterClosed)), s)) ∧
      (s.closed = false → lookupA s.index epID = none →
        Pessimize s epID =
          (Res.ok (some (GoErr.wrapped pessimizeMsg GoErr.unknownEndpoint)), s)) ∧
      (∀ e : Entry, s.closed = false → lookupA s.index epID = some e →
        e.Handle = none →
        Pessimize s epID =
          (Res.ok (some (GoErr.wrapped pessimizeMsg GoErr.nilBalancerElement)), s)) ∧
      (∀ (e : Entry) (hdl : Nat), s.closed = false →
        lookupA s.index epID = some e → e.Handle = some hdl →
        bContains s.bElems hdl = false →
        Pessimize s epID =
          (Res.ok (some (GoErr.wrapped pessimizeMsg GoErr.unknownBalancerElement)), s)) ∧
      (∀ (e : Entry) (hdl r : Nat), s.closed = false →
        lookupA s.index epID = some e → e.Handle = some hdl →
        bContains s.bElems hdl = true → e.Conn = some r →
        r < s.conns.length →
        (Pessimize s epID).1 = Res.ok none ∧
        ((Pessimize s epID).2.conns[r]?.map fun c => c.st) =
          some ConnState.Banned) := by
  intro s epID
  refine ⟨?_, ?_, ?_, ?_, ?_⟩
  · intro h
    simp [Pessimize, h]
  · intro h habs
    simp [Pessimize, h, habs]
  · intro e h he hh
    simp [Pessimize, h, he, hh]
  · intro e hdl h he hh hb
    simp [Pessimize, h, he, hh, hb]
  · intro e hdl r h he hh hb hc hr
    constructor
    · simp only [Pessimize, h, he, hh, hb, hc]
      simp only [Bool.false_eq_true, if_false, if_true]
      split_ifs <;> rfl
    · simp only [Pessimize, h, he, hh, hb, hc]
      simp only [Bool.false_eq_true, if_false, if_true]
      split_ifs <;>
        simp [setConnState_getElem s.conns r ConnState.Banned hr,
          List.getElem?_eq_getElem hr]

/-- Witness for C2 at the concrete one-entry registry: pessimizing the
present node succeeds and bans its connection; pessimizing an absent
NodeID yields the wrapped UnknownEndpoint error. -/
theorem Pessimize_error_kinds_and_ban_witness :
    ((Pessimize regOne 1).1 = Res.ok none ∧
     ((Pessimize regOne 1).2.conns[0]?.map fun c => c.st) =
       some ConnState.Banned) ∧
    Pessimize regOne 2 =
      (Res.ok (some (GoErr.wrapped pessimizeMsg GoErr.unknownEndpoint)), regOne) :=
  ⟨(Pessimize_error_kinds_and_ban regOne 1).2.2.2.2
      ⟨⟨0, false⟩, some 0, some 0⟩ 0 0 rfl (by decide) rfl (by decide) rfl
      (by decide),
   (Pessimize_error_kinds_and_ban regOne 2).2.1 rfl (by decide)⟩

/-- C3: on a successful Pessimize with a configured trigger, `Force()`
is invoked exactly when online-count × 2 is below the number of tracked
entries, the count being taken after the pessimized connection is marked
Banned; in the spec's concrete scenario (insert 4 nodes, pessimize 3)
the trigger fires exactly once, at the third pessimize. -/
theorem Pessimize_force_ratio :
    (∀ (s : ClusterState) (epID : Nat) (e : Entry) (hdl r : Nat),
      s.closed = false → lookupA s.index epID = some e →
      e.Handle = some hdl → bContains s.bElems hdl = true →
      e.Conn = some r → s.explorer = true →
      (Pessimize s epID).2.forceCount =
        s.forceCount +
          (if countOnline
              { s with conns := setConnState s.conns r ConnState.Banned } * 2 <
              s.index.length
           then 1 else 0)) ∧
    ((Pessimize scenFour 1).1 = Res.ok none ∧
     (Pessimize scenFour 1).2.forceCount = 0 ∧
     (Pessimize (Pessimize scenFour 1).2 2).1 = Res.ok none ∧
     scenTwo.forceCount = 0 ∧
     (Pessimize scenTwo 3).1 = Res.ok none ∧
     (Pessimize scenTwo 3).2.forceCount = 1) := by
  constructor
  · intro s epID e hdl r h he hh hb hc hexp
    simp only [Pessimize, h, he, hh, hb, hc, hexp]
    simp only [Bool.false_eq_true, if_false, if_true]
    split_ifs <;> simp
  · refine ⟨by decide, by decide, by decide, by decide, by decide, by decide⟩

/-- Witness for C3: the general ratio law applied at the third pessimize
of the concrete scenario. -/
theorem Pessimize_force_ratio_witness :
    (Pessimize scenTwo 3).2.forceCount =
      scenTwo.forceCount +
        (if countOnline
            { scenTwo with conns := setConnState scenTwo.conns 2 ConnState.Banned } * 2 <
            scenTwo.index.length
         then 1 else 0) :=
  Pessimize_force_ratio.1 scenTwo 3 ⟨⟨0, false⟩, some 2, some 2⟩ 2 2
    (by decide) (by decide) (by decide) (by decide) (by decide) (by decide)

/-- C8: the first Close returns no error, stops the trigger if set,
releases the broadcast gate if allocated, empties the mapping and closes
every entry's present connection exactly once (connections not owned by
any entry are untouched); a second Close returns immediately with no
error and changes nothing. -/
theorem Close_idempotent :
    ∀ s : ClusterState, s.closed = false →
      (s.index.filterMap fun kv => kv.2.Conn).Nodup →
      (Close s).1 = Res.ok none ∧
      (Close s).2.closed = true ∧
      (Close s).2.index = [] ∧
      (Close s).2.stopCount = s.stopCount + (if s.explorer then 1 else 0) ∧
      (Close s).2.gateReleases =
        s.gateReleases + (if s.waitGate then 1 else 0) ∧
      (∀ r, r ∈ (s.index.filterMap fun kv => kv.2.Conn) →
        ((Close s).2.conns[r]?.map fun c => c.closes) =
          (s.conns[r]?.map fun c => c.closes + 1)) ∧
      (∀ r, r ∉ (s.index.filterMap fun kv => kv.2.Conn) →
        (Close s).2.conns[r]? = s.conns[r]?) ∧
      Close (Close s).2 = (Res.ok none, (Close s).2) := by
  intro s h hnd
  refine ⟨?_, ?_, ?_, ?_, ?_, ?_, ?_, ?_⟩
  · simp [Close, h]
  · simp [Close, h]
  · simp [Close, h]
  · simp [Close, h]
  · simp [Close, h]
  · intro r hr
    have hcount := List.count_eq_one_of_mem hnd hr
    simp only [Close, h, Bool.false_eq_true, if_false]
    rw [closeAll_getElem, hcount]
    cases hg : s.conns[r]? <;> simp [hg]
  · intro r hr
    have hcount := List.count_eq_zero_of_not_mem hr
    simp only [Close, h, Bool.false_eq_true, if_false]
    rw [closeAll_getElem, hcount]
    cases hg : s.conns[r]? <;> simp [hg]
  · have h2 : (Close s).2.closed = true := by simp [Close, h]
    obtain ⟨t, ht⟩ : ∃ t, (Close s).2 = t := ⟨_, rfl⟩
    rw [ht] at h2 ⊢
    simp [Close, h2]

/-- Witness for C8 at the concrete one-entry registry: its connection's
close counter rises by exactly one and the second Close is a silent
no-op. -/
theorem Close_idempotent_witness :
    ((Close regOne).2.conns[0]?.map fun c => c.closes) =
      (regOne.conns[0]?.map fun c => c.closes + 1) ∧
    Close (Close regOne).2 = (Res.ok none, (Close regOne).2) :=
  ⟨(Close_idempotent regOne rfl (by decide)).2.2.2.2.2.1 0 (by decide),
   (Close_idempotent regOne rfl (by decide)).2.2.2.2.2.2.2⟩

/-- C10 (code bug): Remove of a present NodeID whose entry has a nil
connection does perform the balancer unregistration, the ready-counter
decrement and the mapping deletion, and skips the connection close — but
it then panics evaluating `entry.Conn.Runtime().GetState()` for the
trace callback instead of completing normally. -/
theorem Remove_nil_conn_panics :
    (Remove c10state ⟨1, 0, false⟩).1 = Res.fatal nilConnMsg ∧
    (Remove c10state ⟨1, 0, false⟩).2.index = [] ∧
    (Remove c10state ⟨1, 0, false⟩).2.ready = 0 ∧
    (Remove c10state ⟨1, 0, false⟩).2.bElems = [] := by
  refine ⟨by decide, by decide, by decide, by decide⟩

end Cluster
